import Mathlib

/-!
Shallow embedding of the core of `action-perfect-get-on-go`:
the text segmenter and final-output marker extraction
(`internal/cleaner/segmenter.go`), the fetch-result classifier, the
retry pass and the fetch stage (`internal/pipeline`), the parallel
scrape worker body (`pkg/scraper/scraper.go`), the Map-phase worker
body and fan-in collection (`internal/cleaner`, `LLMConcurrentExecutor`),
and the pipeline orchestrator (`pipeline.Execute`).

Go strings are modelled as Lean `String` (a list of Unicode code
points, matching Go's `[]rune` view); where the Go code manipulates
byte offsets of a UTF-8 encoding (`strings.LastIndex` inside
`segmentText`), the byte offsets are computed explicitly from the code
points.  Go `error` values are modelled as `Option String` (the
message), `nil` being `none`.
-/

set_option autoImplicit false

namespace APG

/-- UTF-8 encoded length in bytes of one code point, as Go's
`utf8.RuneLen` computes it for every valid rune (Lean `Char` is always
a Unicode scalar value, the same value range Go produces when ranging
over a `[]rune`). -/
def runeLen (c : Char) : Nat :=
  if c.toNat < 0x80 then 1
  else if c.toNat < 0x800 then 2
  else if c.toNat < 0x10000 then 3
  else 4

/-- `DefaultSeparator` from `internal/cleaner/model.go`. -/
def DefaultSeparator : String := "\n\n"

/-- `FinalStartMarker` from `internal/cleaner/model.go`. -/
def FinalStartMarker : String := "<FINAL_START>"

/-- `FinalEndMarker` from `internal/cleaner/model.go`. -/
def FinalEndMarker : String := "<FINAL_END>"

/-- Byte index (into the UTF-8 encoding) of the last occurrence of the
two-byte separator `"\n\n"` in a string given by its code points:
exactly `strings.LastIndex(s, "\n\n")`, with `none` for Go's `-1`.
The byte `0x0A` occurs in UTF-8 only as the stand-alone rune `'\n'`,
so every byte-level occurrence of `"\n\n"` starts at a rune boundary
and consists of two consecutive `'\n'` runes; the byte index of an
occurrence is the summed UTF-8 length of the runes before it. -/
def lastSepByteIdx : List Char → Option Nat
  | [] => none
  | c :: rest =>
    match lastSepByteIdx rest with
    | some i => some (runeLen c + i)
    | none =>
      match rest with
      | r :: _ => if c = '\n' && r = '\n' then some 0 else none
      | [] => none

/-- Loop body of `segmentText` (`internal/cleaner/segmenter.go`),
with explicit fuel for termination.  `current` is the Go `[]rune`
slice of the remaining text.  Note the source's mixed indexing,
kept faithfully: `segmentCandidate` is `string(current[:maxChars])`
and `strings.LastIndex` yields a **byte** offset into it, which the
source then compares against `maxChars/2` and uses (plus the 2-byte
separator length) as a **rune** index `splitIndex` into `current`. -/
def segmentTextLoop : Nat → List Char → Nat → List String
  | 0, _, _ => []
  | fuel + 1, current, maxChars =>
    if current.length = 0 then []
    else if current.length ≤ maxChars then [String.mk current]
    else
      let segmentCandidate := current.take maxChars
      let splitIndex :=
        match lastSepByteIdx segmentCandidate with
        | some lastSepIdx =>
          if lastSepIdx > maxChars / 2 then lastSepIdx + 2 else maxChars
        | none => maxChars
      String.mk (current.take splitIndex) ::
        segmentTextLoop fuel (current.drop splitIndex) maxChars

/-- `segmentText` from `internal/cleaner/segmenter.go`.  The Go loop
removes at least one rune per iteration whenever `maxChars ≥ 1`, so
fuel equal to the rune length of the text is sufficient. -/
def segmentText (text : String) (maxChars : Nat) : List String :=
  segmentTextLoop text.data.length text.data maxChars

/-- Whether the code-point list `pat` is an initial segment of `s`. -/
def beginsWith : List Char → List Char → Bool
  | [], _ => true
  | _ :: _, [] => false
  | p :: ps, c :: cs => p = c && beginsWith ps cs

/-- Code-point index of the first occurrence of the non-empty pattern
`pat` in `s`, `none` when absent: `strings.Index(s, pat)` with `none`
for Go's `-1`.  `strings.Index` returns a byte offset, but both
markers searched for by `cleanFinalOutput` are pure ASCII, so every
byte-level occurrence starts at a rune boundary; byte offsets of rune
boundaries grow strictly with the rune index, so `none`-ness, the
relative order of the two indices, and the slice boundaries derived
from them agree between the byte view and this code-point view. -/
def firstIdx (pat : List Char) : List Char → Option Nat
  | [] => none
  | c :: rest =>
    if beginsWith pat (c :: rest) then some 0
    else (firstIdx pat rest).map (· + 1)

/-- Go's `unicode.IsSpace`: the Unicode `White_Space` property. -/
def goIsSpace (c : Char) : Bool :=
  let n := c.toNat
  n = 0x09 || n = 0x0A || n = 0x0B || n = 0x0C || n = 0x0D || n = 0x20 ||
  n = 0x85 || n = 0xA0 || n = 0x1680 || (0x2000 ≤ n && n ≤ 0x200A) ||
  n = 0x2028 || n = 0x2029 || n = 0x202F || n = 0x205F || n = 0x3000

/-- `strings.TrimSpace` on code points: drop leading and trailing
`unicode.IsSpace` code points. -/
def trimSpace (s : List Char) : List Char :=
  ((s.dropWhile goIsSpace).reverse.dropWhile goIsSpace).reverse

/-- `strings.TrimSpace` as a `String` function. -/
def TrimSpace (s : String) : String := String.mk (trimSpace s.data)

/-- `cleanFinalOutput` from `internal/cleaner/segmenter.go`: locate the
first occurrences of the two markers; if either is absent or the start
marker does not come strictly first, return the whole response
trimmed; otherwise return the trimmed text strictly between the end of
the start marker and the start of the end marker.  Go slices the byte
range `[startIdx+len(FinalStartMarker), endIdx)`; both bounds are rune
boundaries (ASCII markers), so the slice is the code-point range
`[si + 13, ei)` taken here.  (When both markers occur and `si < ei`,
`ei ≥ si + 13` automatically: inside the literal `<FINAL_START>` only
offset 0 carries `'<'`, so `<FINAL_END>` cannot start strictly inside
it; hence the `take` below never truncates.) -/
def cleanFinalOutput (llmResponse : String) : String :=
  let startIdx := firstIdx FinalStartMarker.data llmResponse.data
  let endIdx := firstIdx FinalEndMarker.data llmResponse.data
  match startIdx, endIdx with
  | some si, some ei =>
    if si ≥ ei then TrimSpace llmResponse
    else
      String.mk (trimSpace
        ((llmResponse.data.drop (si + FinalStartMarker.data.length)).take
          (ei - (si + FinalStartMarker.data.length))))
  | _, _ => TrimSpace llmResponse

/-- `types.URLResult` (`pkg/types/types.go`): per-source fetch result.
`Error` models the Go `error` field, `none` being `nil`. -/
structure URLResult where
  URL : String
  Content : String
  Error : Option String
deriving DecidableEq

/-- The success predicate of the spec (§3): no error and non-empty
content.  `classifyResults` is proved to classify by exactly this. -/
def isSuccessful (r : URLResult) : Bool :=
  r.Error.isNone && !(r.Content == "")

/-- `classifyResults` (`internal/pipeline`, fetcher file): one pass
over the results, sending each to the failed-URL list when
`res.Error != nil || res.Content == ""` and to the successful list
otherwise, preserving order. -/
def classifyResults : List URLResult → List URLResult × List String
  | [] => ([], [])
  | res :: rest =>
    let p := classifyResults rest
    if res.Error.isSome || res.Content == "" then (p.1, res.URL :: p.2)
    else (res :: p.1, p.2)

/-- Message built by the fetch workers and the retry pass when the
extractor reports no usable body for `url`. -/
def noBodyMsg (url : String) : String :=
  "URL " ++ url ++ " から有効な本文を抽出できませんでした"

/-- Wrap of a low-level extraction error, as both the scrape worker
and the retry pass produce with `fmt.Errorf`. -/
def extractFailMsg (e : String) : String :=
  "コンテンツの抽出に失敗しました: " ++ e

/-- The error-derivation shared by the scrape worker and the retry
pass: `FetchAndExtractText` yields `(content, hasBodyFound, err)`;
a non-nil `err` is wrapped, and otherwise empty content or
`hasBodyFound == false` becomes the domain "no body" error. -/
def deriveExtractErr (url content : String) (hasBodyFound : Bool)
    (err : Option String) : Option String :=
  match err with
  | some e => some (extractFailMsg e)
  | none =>
    if content == "" || !hasBodyFound then some (noBodyMsg url) else none

/-- Body of one `ScrapeInParallel` goroutine
(`pkg/scraper/scraper.go`): before anything else it polls the shared
context; if cancelled it emits `URLResult{URL: u, Error: ctx.Err()}`
(zero-value content) and returns, otherwise it calls the extractor
once and emits the result with `deriveExtractErr`.  The `extractor`
argument abstracts `FetchAndExtractText`; the second component of the
returned pair records whether the extractor was invoked. -/
def scrapeWorker (cancelled : Bool) (ctxErr : String)
    (extractor : String → String × Bool × Option String) (u : String) :
    URLResult × Bool :=
  if cancelled then
    ({ URL := u, Content := "", Error := some ctxErr }, false)
  else
    let out := extractor u
    ({ URL := u, Content := out.1,
       Error := deriveExtractErr u out.1 out.2.1 out.2.2 }, true)

/-- `processFailedURLs` (`internal/pipeline`, fetcher file): sequential
retry over the failed URLs; a retry that still errors is only logged,
a successful retry is appended as `{URL, Content, Error: nil}`. -/
def processFailedURLs (extractor : String → String × Bool × Option String) :
    List String → List URLResult
  | [] => []
  | url :: rest =>
    let out := extractor url
    match deriveExtractErr url out.1 out.2.1 out.2.2 with
    | some _ => processFailedURLs extractor rest
    | none =>
      { URL := url, Content := out.1, Error := none } ::
        processFailedURLs extractor rest

/-- The fatal message of the fetch stage when nothing was retrieved. -/
def noUsableContentMsg : String :=
  "処理可能なWebコンテンツを一件も取得できませんでした。URLを確認してください。"

/-- The final successful set Fetch assembles: initial successes plus
retried successes. -/
def finalSuccessful (extractor : String → String × Bool × Option String)
    (scrapeResults : List URLResult) : List URLResult :=
  (classifyResults scrapeResults).1 ++
    processFailedURLs extractor (classifyResults scrapeResults).2

/-- `WebContentFetcherImpl.Fetch` (`internal/pipeline`, fetcher file),
with the concurrency flattened out: the parallel pass is abstracted as
the list `scrapeResults` returned by `ScrapeInParallel`, and the
retries use `extractor`.  Retried successes are appended only when
there were failed URLs (appending the empty retry list otherwise
changes nothing); an empty final set is the fatal error, else the set
is returned. -/
def Fetch (extractor : String → String × Bool × Option String)
    (scrapeResults : List URLResult) : Except String (List URLResult) :=
  let classified := classifyResults scrapeResults
  let successfulResults :=
    if classified.2.length > 0 then
      classified.1 ++ processFailedURLs extractor classified.2
    else classified.1
  if successfulResults.length = 0 then Except.error noUsableContentMsg
  else Except.ok successfulResults

/-- Phase names from `internal/pipeline/pipeline.go`. -/
def PhaseURLs : String := "URL生成フェーズ"

/-- Phase name of the content-fetch stage. -/
def PhaseContent : String := "コンテンツ取得フェーズ"

/-- Phase name of the AI-cleanup/output stage. -/
def PhaseCleanUp : String := "AIクリーンアップと出力フェーズ"

/-- `fmt.Errorf("%sでエラーが発生しました: %w", phase, err)`. -/
def phaseWrap (phase e : String) : String :=
  phase ++ "でエラーが発生しました: " ++ e

/-- `Pipeline.Execute` (`internal/pipeline/pipeline.go`) with the three
injected stages abstracted as oracles; returns the run's error (wrapped
with the failing phase) and whether the output stage was invoked. -/
def Execute (genURLs : Except String (List String))
    (fetchStage : List String → Except String (List URLResult))
    (outputStage : List URLResult → Option String) :
    Option String × Bool :=
  match genURLs with
  | Except.error e => (some (phaseWrap PhaseURLs e), false)
  | Except.ok urls =>
    match fetchStage urls with
    | Except.error e => (some (phaseWrap PhaseContent e), false)
    | Except.ok successfulResults =>
      match outputStage successfulResults with
      | some e => (some (phaseWrap PhaseCleanUp e), true)
      | none => (none, true)

/-- `cleaner.Segment` (`internal/cleaner/model.go`). -/
structure Segment where
  Text : String
  URL : String
deriving DecidableEq

/-- `prompts.MapTemplateData`. -/
structure MapTemplateData where
  SegmentText : String
  SourceURL : String
deriving DecidableEq

/-- `cleaner.MapResult` (`LLMConcurrentExecutor` file). -/
structure MapResult where
  Summary : String
  Err : Option String
deriving DecidableEq

/-- Body of one `ExecuteMap` goroutine (`LLMConcurrentExecutor` file):
the `select` races the rate-limiter tick against `ctx.Done()`;
`cancelled` records that the cancellation branch won, in which case a
cancellation `MapResult` is emitted and the generation service is
never called.  Otherwise the Map prompt is built (failure emits a
build-error result without calling the service) and
`client.GenerateContent` is invoked.  The second component records
whether the generation service was called. -/
def mapWorker (cancelled : Bool) (ctxErr : String)
    (buildMap : MapTemplateData → Except String String)
    (generate : String → Except String String)
    (index : Nat) (s : Segment) : MapResult × Bool :=
  if cancelled then
    ({ Summary := "",
       Err := some ("セグメント " ++ toString (index + 1) ++
         " 処理がコンテキストキャンセルにより中断されました: " ++ ctxErr) }, false)
  else
    match buildMap { SegmentText := s.Text, SourceURL := s.URL } with
    | Except.error e =>
      ({ Summary := "",
         Err := some ("セグメント " ++ toString (index + 1) ++
           " プロンプト生成失敗 (URL: " ++ s.URL ++ "): " ++ e) }, false)
    | Except.ok prompt =>
      match generate prompt with
      | Except.error e =>
        ({ Summary := "",
           Err := some ("セグメント " ++ toString (index + 1) ++
             " 処理失敗 (URL: " ++ s.URL ++ "): " ++ e) }, true)
      | Except.ok text => ({ Summary := text, Err := none }, true)

/-- The multiset of outcomes the `ExecuteMap` workers put on
`resultsChan`: one `MapResult` per segment, indexed as the Go loop
indexes (`i, seg := range allSegments`).  The channel delivers them in
an arbitrary order, which the theorems quantify over as a permutation
of this list. -/
def executeMapOutcomes (cancelled : Bool) (ctxErr : String)
    (buildMap : MapTemplateData → Except String String)
    (generate : String → Except String String)
    (segments : List Segment) : List MapResult :=
  segments.enum.map fun p =>
    (mapWorker cancelled ctxErr buildMap generate p.1 p.2).1

/-- The fan-in loop at the end of `ExecuteMap`: scan outcomes in
arrival order; the first non-nil `Err` makes the whole call return
`(nil, err)`, otherwise the summaries are accumulated in order and
returned with a nil error.  Modelled as the pair (summaries slice,
error), Go's `nil` slice being `[]`. -/
def collectMapResults : List MapResult → List String × Option String
  | [] => ([], none)
  | r :: rs =>
    match r.Err with
    | some e => ([], some e)
    | none =>
      match collectMapResults rs with
      | (_, some e) => ([], some e)
      | (ss, none) => (r.Summary :: ss, none)

/-!  Theorems about the segmenter (claims C1, C6, C9). -/

/-- Claim C1: the claimed segmentation bound fails on the code.  On
`"ああ\n\nabcdef"` with `maxChars = 5` the byte offset 6 of the last
`"\n\n"` inside the 5-code-point window is used as a code-point split
index, so the first emitted segment has 8 code points, exceeding
`maxChars = 5`. -/
theorem segmentText_bound_violated :
    segmentText "ああ\n\nabcdef" 5 = ["ああ\n\nabcd", "ef"] ∧
    (segmentText "ああ\n\nabcdef" 5).map String.length = [8, 2] := by decide

/-- Claim C6: the cut-placement rule fails on the code.  On
`"あああああ\n\nbcdefghijk"` with `maxChars = 8` the separator sits at
code-point position 5 (past half the window, so the claim places the
cut at code point 7, and a forced cut would sit at 8), yet the code
cuts at the byte offset 15 plus 2, producing a single 17-code-point
segment: no emitted segment has length 7 or 8. -/
theorem segmentText_cut_misplaced :
    segmentText "あああああ\n\nbcdefghijk" 8 = ["あああああ\n\nbcdefghijk"] ∧
    (segmentText "あああああ\n\nbcdefghijk" 8).map String.length = [17] := by
  decide

/-- Claim C9, counterexample: for the empty text the loop never runs
and `segmentText` returns the empty list, not `[""]`. -/
theorem segmentText_empty_not_singleton : segmentText "" 1 ≠ [""] := by
  decide

/-- Claim C9 (amended): re-segmenting an already-undersized **non-empty**
text returns it unchanged as a single segment. -/
theorem segmentText_undersized_identity (text : String) (maxChars : Nat)
    (hne : text ≠ "") (hle : text.length ≤ maxChars) :
    segmentText text maxChars = [text] := by
  obtain ⟨data⟩ := text
  match data, hne, hle with
  | [], hne, _ => exact absurd rfl hne
  | c :: cs, _, hle =>
    have hle' : cs.length + 1 ≤ maxChars := hle
    show segmentTextLoop (cs.length + 1) (c :: cs) maxChars = [⟨c :: cs⟩]
    simp [segmentTextLoop, hle']

/-- Claim C9, witness for the amended theorem at a concrete input. -/
theorem segmentText_undersized_identity_witness :
    segmentText "ab" 3 = ["ab"] :=
  segmentText_undersized_identity "ab" 3 (by decide) (by decide)

/-!  Theorems about marker extraction (claim C5). -/

/-- Claim C5: `cleanFinalOutput` returns the whole response trimmed
when a marker is absent or the first `<FINAL_START>` does not come
strictly before the first `<FINAL_END>`; otherwise it returns the
trimmed text strictly between the two markers; and on
`"noise<FINAL_START> clean text <FINAL_END>trailing"` it returns
`"clean text"`.  It never fails (it is a total `String → String`). -/
theorem cleanFinalOutput_spec (s : String) :
    ((firstIdx FinalStartMarker.data s.data = none ∨
      firstIdx FinalEndMarker.data s.data = none ∨
      (∃ i j, firstIdx FinalStartMarker.data s.data = some i ∧
        firstIdx FinalEndMarker.data s.data = some j ∧ j ≤ i)) →
      cleanFinalOutput s = TrimSpace s) ∧
    (∀ i j, firstIdx FinalStartMarker.data s.data = some i →
      firstIdx FinalEndMarker.data s.data = some j → i < j →
      cleanFinalOutput s = String.mk (trimSpace
        ((s.data.drop (i + FinalStartMarker.data.length)).take
          (j - (i + FinalStartMarker.data.length))))) ∧
    cleanFinalOutput "noise<FINAL_START> clean text <FINAL_END>trailing" =
      "clean text" := by
  refine ⟨?_, ?_, by decide⟩
  · intro h
    unfold cleanFinalOutput
    cases hs : firstIdx FinalStartMarker.data s.data with
    | none => rfl
    | some si =>
      cases he : firstIdx FinalEndMarker.data s.data with
      | none => rfl
      | some ei =>
        rcases h with h | h | ⟨i, j, hi, hj, hle⟩
        · rw [hs] at h; cases h
        · rw [he] at h; cases h
        · rw [hs] at hi
          rw [he] at hj
          cases hi
          cases hj
          simp only []
          rw [if_pos (by omega)]
  · intro i j hi hj hlt
    unfold cleanFinalOutput
    rw [hi, hj]
    simp only []
    rw [if_neg (by omega)]

/-- Claim C5, witness: both branches of the theorem at concrete
responses — a response with the markers out of order degrades to the
trimmed whole, and a well-wrapped response yields the slice between
the markers. -/
theorem cleanFinalOutput_spec_witness :
    cleanFinalOutput "<FINAL_END> x <FINAL_START>" =
      TrimSpace "<FINAL_END> x <FINAL_START>" ∧
    cleanFinalOutput "a<FINAL_START>b<FINAL_END>c" = String.mk (trimSpace
      ((("a<FINAL_START>b<FINAL_END>c" : String).data.drop
        (1 + FinalStartMarker.data.length)).take
        (15 - (1 + FinalStartMarker.data.length)))) :=
  ⟨(cleanFinalOutput_spec "<FINAL_END> x <FINAL_START>").1
      (Or.inr (Or.inr ⟨14, 0, by decide, by decide, by decide⟩)),
    (cleanFinalOutput_spec "a<FINAL_START>b<FINAL_END>c").2.1 1 15
      (by decide) (by decide) (by decide)⟩

/-!  Theorems about result classification (claim C2). -/

/-- `isSuccessful` is exactly the negation of the condition tested by
`classifyResults`. -/
theorem isSuccessful_eq_not_cond (r : URLResult) :
    isSuccessful r = !(r.Error.isSome || r.Content == "") := by
  unfold isSuccessful
  cases r.Error <;> cases h : r.Content == "" <;> simp [h]

/-- Claim C2: `classifyResults` keeps, in order, exactly the results
satisfying the success predicate (`Error` nil and `Content` non-empty)
and sends the URLs of exactly the others to the failed list, so every
input lands in exactly one of the two sets and the sizes add up. -/
theorem classifyResults_partition (results : List URLResult) :
    classifyResults results =
      (results.filter isSuccessful,
        (results.filter fun r => !(isSuccessful r)).map URLResult.URL) ∧
    (classifyResults results).1.length + (classifyResults results).2.length =
      results.length := by
  have key : ∀ (l : List URLResult),
      classifyResults l =
        (l.filter isSuccessful,
          (l.filter fun r => !(isSuccessful r)).map URLResult.URL) := by
    intro l
    induction l with
    | nil => rfl
    | cons r rest ih =>
      have hs := isSuccessful_eq_not_cond r
      cases hcond : (r.Error.isSome || r.Content == "") <;>
        simp_all [classifyResults, List.filter_cons]
  refine ⟨key results, ?_⟩
  rw [key results]
  have hlen : ∀ (l : List URLResult),
      (l.filter isSuccessful).length +
        (l.filter fun r => !(isSuccessful r)).length = l.length := by
    intro l
    induction l with
    | nil => rfl
    | cons r rest ih =>
      cases h : isSuccessful r <;> simp [List.filter_cons, h] <;> omega
  simpa using hlen results

/-!  Theorems about the Map executor (claim C3). -/

/-- If some arrived outcome carries an error, the fan-in scan returns
a nil summary list together with an error. -/
theorem collect_error_of_mem {rs : List MapResult}
    (h : ∃ r ∈ rs, r.Err ≠ none) :
    ∃ e, collectMapResults rs = ([], some e) := by
  induction rs with
  | nil => simp at h
  | cons r rest ih =>
    cases hE : r.Err with
    | some e => exact ⟨e, by simp [collectMapResults, hE]⟩
    | none =>
      obtain ⟨x, hx, hxe⟩ := h
      rcases List.mem_cons.mp hx with rfl | hx
      · exact absurd hE hxe
      · obtain ⟨e, he⟩ := ih ⟨x, hx, hxe⟩
        exact ⟨e, by simp [collectMapResults, hE, he]⟩

/-- If every arrived outcome is error-free, the fan-in scan returns
all summaries in arrival order with a nil error. -/
theorem collect_ok_of_all_none {rs : List MapResult}
    (h : ∀ r ∈ rs, r.Err = none) :
    collectMapResults rs = (rs.map MapResult.Summary, none) := by
  induction rs with
  | nil => rfl
  | cons r rest ih =>
    have hr : r.Err = none := h r (by simp)
    have ht := ih fun x hx => h x (by simp [hx])
    simp [collectMapResults, hr, ht]

/-- Claim C3: whatever order the `ExecuteMap` worker outcomes arrive
in, if the prompt construction or generation call of any one segment
errored then the call returns an error together with a nil summary
list, and if no segment errored it returns a nil error and exactly one
summary per segment. -/
theorem executeMap_fail_fast (cancelled : Bool) (ctxErr : String)
    (buildMap : MapTemplateData → Except String String)
    (generate : String → Except String String)
    (segments : List Segment) (outcomes : List MapResult)
    (hperm : outcomes.Perm
      (executeMapOutcomes cancelled ctxErr buildMap generate segments)) :
    ((∃ r ∈ executeMapOutcomes cancelled ctxErr buildMap generate segments,
        r.Err ≠ none) →
      ∃ e, collectMapResults outcomes = ([], some e)) ∧
    ((∀ r ∈ executeMapOutcomes cancelled ctxErr buildMap generate segments,
        r.Err = none) →
      ∃ ss, collectMapResults outcomes = (ss, none) ∧
        ss.length = segments.length) := by
  constructor
  · rintro ⟨r, hr, hne⟩
    exact collect_error_of_mem ⟨r, hperm.mem_iff.mpr hr, hne⟩
  · intro h
    have hall : ∀ r ∈ outcomes, r.Err = none := fun r hr =>
      h r (hperm.mem_iff.mp hr)
    refine ⟨outcomes.map MapResult.Summary, collect_ok_of_all_none hall, ?_⟩
    rw [List.length_map, hperm.length_eq]
    simp [executeMapOutcomes]

/-- Claim C3, witness: one segment whose generation call fails makes
the whole call return `(nil, error)`. -/
theorem executeMap_fail_fast_witness :
    ∃ e, collectMapResults (executeMapOutcomes false ""
      (fun _ => Except.ok "p") (fun _ => Except.error "boom")
      [⟨"t", "u"⟩]) = ([], some e) :=
  (executeMap_fail_fast false "" (fun _ => Except.ok "p")
    (fun _ => Except.error "boom") [⟨"t", "u"⟩] _ (List.Perm.refl _)).1
    (by decide)

/-!  Theorems about the fetch stage (claims C4, C7, C10) and
cancellation (claim C8). -/

/-- `Fetch` is the emptiness test on the assembled final successful
set: the `len(failedURLs) > 0` guard in the source is immaterial
because retrying an empty list yields an empty list. -/
theorem Fetch_eq_final (extractor : String → String × Bool × Option String)
    (scrapeResults : List URLResult) :
    Fetch extractor scrapeResults =
      if finalSuccessful extractor scrapeResults = [] then
        Except.error noUsableContentMsg
      else Except.ok (finalSuccessful extractor scrapeResults) := by
  unfold Fetch finalSuccessful
  cases hf : (classifyResults scrapeResults).2 with
  | nil => simp [hf, processFailedURLs, List.length_eq_zero]
  | cons u rest => simp [hf, List.length_eq_zero]

/-- Claim C4: when the initial pass plus the retry pass leave no
successful result, `Fetch` returns the fatal "no usable content" error
and `Execute` stops after wrapping it with the content-fetch phase
name, never invoking the output stage; when something survived,
`Fetch` returns exactly that set without error. -/
theorem fetch_empty_batch_fatality
    (extractor : String → String × Bool × Option String)
    (scrapeResults : List URLResult) (urls : List String)
    (outputStage : List URLResult → Option String) :
    (finalSuccessful extractor scrapeResults = [] →
      Fetch extractor scrapeResults = Except.error noUsableContentMsg ∧
      Execute (Except.ok urls) (fun _ => Fetch extractor scrapeResults)
        outputStage =
        (some (phaseWrap PhaseContent noUsableContentMsg), false)) ∧
    (finalSuccessful extractor scrapeResults ≠ [] →
      Fetch extractor scrapeResults =
        Except.ok (finalSuccessful extractor scrapeResults)) := by
  constructor
  · intro h
    have hf : Fetch extractor scrapeResults =
        Except.error noUsableContentMsg := by
      rw [Fetch_eq_final, if_pos h]
    exact ⟨hf, by simp [Execute, hf]⟩
  · intro h
    rw [Fetch_eq_final, if_neg h]

/-- Claim C4, witness: a batch whose single source fails both passes
is fatal and stops the pipeline before the output stage; a batch with
one success is returned as-is. -/
theorem fetch_empty_batch_fatality_witness :
    (Fetch (fun _ => ("", false, none)) [⟨"u", "", none⟩] =
        Except.error noUsableContentMsg ∧
      Execute (Except.ok ["u"])
        (fun _ => Fetch (fun _ => ("", false, none)) [⟨"u", "", none⟩])
        (fun _ => none) =
        (some (phaseWrap PhaseContent noUsableContentMsg), false)) ∧
    Fetch (fun _ => ("c", true, none)) [⟨"u", "c", none⟩] =
      Except.ok (finalSuccessful (fun _ => ("c", true, none))
        [⟨"u", "c", none⟩]) :=
  ⟨(fetch_empty_batch_fatality (fun _ => ("", false, none))
      [⟨"u", "", none⟩] ["u"] (fun _ => none)).1 (by decide),
    (fetch_empty_batch_fatality (fun _ => ("c", true, none))
      [⟨"u", "c", none⟩] ["u"] (fun _ => none)).2 (by decide)⟩

/-- Claim C7, counterexample: a fetch with no low-level error whose
content is whitespace-only (not empty) gets **no** "no body extracted"
error — the worker emits `Error = nil` and the classifier files it as
successful, contrary to the claim's "or whitespace-only" clause. -/
theorem scrapeWorker_whitespace_content_succeeds :
    (scrapeWorker false "ctx" (fun _ => (" ", true, none)) "u").1.Error =
      none ∧
    classifyResults [(scrapeWorker false "ctx"
      (fun _ => (" ", true, none)) "u").1] =
      ([(scrapeWorker false "ctx" (fun _ => (" ", true, none)) "u").1],
        []) := by decide

/-- Claim C7 (amended): for every source whose low-level fetch call
reports no error but yields **empty** content or reports the body as
not found, the fetch worker emits the domain-specific "no body
extracted" error, the classifier files the source as failed, and the
retry pass likewise drops it. -/
theorem scrapeWorker_no_body_error (ctxErr u content : String)
    (found : Bool) (extractor : String → String × Bool × Option String)
    (hx : extractor u = (content, found, none))
    (hbad : content = "" ∨ found = false) :
    (scrapeWorker false ctxErr extractor u).1.Error = some (noBodyMsg u) ∧
    classifyResults [(scrapeWorker false ctxErr extractor u).1] =
      ([], [u]) ∧
    processFailedURLs extractor [u] = [] := by
  have hcond : (content == "" || !found) = true := by
    rcases hbad with h | h <;> simp [h]
  have herr : deriveExtractErr u content found none = some (noBodyMsg u) := by
    simp [deriveExtractErr, hcond]
  refine ⟨?_, ?_, ?_⟩ <;>
    simp [scrapeWorker, processFailedURLs, classifyResults, hx, herr]

/-- Claim C7, witness for the amended theorem: a not-found empty fetch
is errored, classified failed, and dropped by the retry pass. -/
theorem scrapeWorker_no_body_error_witness :
    (scrapeWorker false "c" (fun _ => ("", false, none)) "x").1.Error =
      some (noBodyMsg "x") ∧
    classifyResults [(scrapeWorker false "c"
      (fun _ => ("", false, none)) "x").1] = ([], ["x"]) ∧
    processFailedURLs (fun _ => ("", false, none)) ["x"] = [] :=
  scrapeWorker_no_body_error "c" "x" "" false (fun _ => ("", false, none))
    rfl (Or.inl rfl)

/-- Claim C8: a scrape worker that observes cancellation before
starting emits a result whose error is the context's cancellation
error and returns without invoking the extractor (second component
`false`), and a Map worker that loses the rate-limit race to
cancellation reports the cancellation outcome without calling the
generation service. -/
theorem worker_cancellation_no_call (ctxErr u : String)
    (extractor : String → String × Bool × Option String)
    (buildMap : MapTemplateData → Except String String)
    (generate : String → Except String String) (index : Nat) (s : Segment) :
    scrapeWorker true ctxErr extractor u =
      ({ URL := u, Content := "", Error := some ctxErr }, false) ∧
    mapWorker true ctxErr buildMap generate index s =
      ({ Summary := "", Err := some ("セグメント " ++ toString (index + 1) ++
        " 処理がコンテキストキャンセルにより中断されました: " ++ ctxErr) },
        false) :=
  ⟨rfl, rfl⟩

/-- Every result kept from the initial pass satisfies the success
predicate. -/
theorem mem_classify_successful {results : List URLResult} {r : URLResult}
    (h : r ∈ (classifyResults results).1) :
    r.Error = none ∧ r.Content ≠ "" := by
  induction results with
  | nil => simp [classifyResults] at h
  | cons x rest ih =>
    cases hcond : (x.Error.isSome || x.Content == "") with
    | true =>
      rw [classifyResults] at h
      simp only [hcond, if_pos] at h
      exact ih h
    | false =>
      rw [classifyResults] at h
      simp only [hcond, Bool.false_eq_true, if_neg, not_false_iff] at h
      rcases List.mem_cons.mp h with rfl | h
      · simp only [Bool.or_eq_false_iff] at hcond
        refine ⟨?_, ?_⟩
        · cases hE : r.Error
          · rfl
          · rw [hE] at hcond; cases hcond.1
        · intro hc
          rw [hc] at hcond
          simp at hcond
      · exact ih h

/-- A nil derived extraction error forces a nil low-level error,
non-empty content and a found body. -/
theorem deriveExtractErr_eq_none {url content : String} {found : Bool}
    {err : Option String}
    (h : deriveExtractErr url content found err = none) :
    err = none ∧ content ≠ "" ∧ found = true := by
  cases err with
  | some e => simp [deriveExtractErr] at h
  | none =>
    cases hc : (content == "" || !found) with
    | true => simp [deriveExtractErr, hc] at h
    | false =>
      simp only [Bool.or_eq_false_iff] at hc
      refine ⟨rfl, ?_, ?_⟩
      · intro hcc
        rw [hcc] at hc
        simp at hc
      · cases hfound : found
        · rw [hfound] at hc
          simp at hc
        · rfl

/-- Every result appended by the retry pass satisfies the success
predicate. -/
theorem mem_processFailed_successful
    {extractor : String → String × Bool × Option String}
    {urls : List String} {r : URLResult}
    (h : r ∈ processFailedURLs extractor urls) :
    r.Error = none ∧ r.Content ≠ "" := by
  induction urls with
  | nil => simp [processFailedURLs] at h
  | cons u rest ih =>
    rw [processFailedURLs] at h
    cases hd : deriveExtractErr u (extractor u).1 (extractor u).2.1
        (extractor u).2.2 with
    | some e =>
      rw [hd] at h
      exact ih h
    | none =>
      rw [hd] at h
      rcases List.mem_cons.mp h with rfl | h
      · exact ⟨rfl, (deriveExtractErr_eq_none hd).2.1⟩
      · exact ih h

/-- Claim C10: every `URLResult` in the list returned by a successful
`Fetch` call has a nil `Error` and non-empty `Content`, whether it was
kept from the initial parallel pass or appended by the retry pass. -/
theorem fetch_results_all_successful
    (extractor : String → String × Bool × Option String)
    (scrapeResults : List URLResult) (res : List URLResult) (r : URLResult)
    (hok : Fetch extractor scrapeResults = Except.ok res) (hr : r ∈ res) :
    r.Error = none ∧ r.Content ≠ "" := by
  rw [Fetch_eq_final] at hok
  by_cases hf : finalSuccessful extractor scrapeResults = []
  · rw [if_pos hf] at hok
    cases hok
  · rw [if_neg hf] at hok
    have hres : finalSuccessful extractor scrapeResults = res :=
      Except.ok.inj hok
    rw [← hres, finalSuccessful, List.mem_append] at hr
    rcases hr with hr | hr
    · exact mem_classify_successful hr
    · exact mem_processFailed_successful hr

/-- Claim C10, witness: the single kept result of a concrete
successful fetch satisfies the predicate. -/
theorem fetch_results_all_successful_witness :
    (⟨"u", "c", none⟩ : URLResult).Error = none ∧
    (⟨"u", "c", none⟩ : URLResult).Content ≠ "" :=
  fetch_results_all_successful (fun _ => ("", false, none))
    [⟨"u", "c", none⟩] [⟨"u", "c", none⟩] ⟨"u", "c", none⟩
    (by rfl) (by decide)

end APG
